import Mathlib

/-!
# ANNarchy4 `Population` (data/cpp/Population.h)

A shallow embedding of the inline member functions of `class Population` and of
the data members they touch, followed by the properties of the delay lookup,
the connection lookup and the `dt` accessor pair.

Conventions of the embedding

* `DATA_TYPE` comes from `Global.h`; it is the type parameter `α`.
* `int` is a 32-bit two's-complement integer, held in `Int`; the one cast of the
  header, `(int)delayedRates_.size()`, is `castToInt`.
* `std::vector<T>` is `List T`; `operator[]` is `vecAt`, which reports an index
  outside `[0, size)` as `Fault.outOfRange` (the C++ behaviour is undefined there).
* `T*` results are `Option T`, `NULL` being `none`.
-/

namespace ANNarchy

/-- Width of `int` in bits. -/
def INT_BITS : Nat := 32

/-- Largest value of `int`. -/
def INT_MAX : Int := 2 ^ (INT_BITS - 1) - 1

/-- The conversion `(int)n` of an unsigned size: reduction modulo `2 ^ INT_BITS`
into the signed range. -/
def castToInt (n : Nat) : Int :=
  let m : Nat := n % 2 ^ INT_BITS
  if m < 2 ^ (INT_BITS - 1) then (m : Int) else (m : Int) - 2 ^ INT_BITS

/-- What an evaluation can run into instead of returning. -/
inductive Fault where
  | outOfRange
  deriving DecidableEq, Repr

/-- Element access `v[i]` of a `std::vector` with an `int` index. The index is
converted to the unsigned `size_type`, so a negative `i` becomes a value beyond
every possible size; any index outside `[0, size)` is an out-of-range access. -/
def vecAt {β : Type} (v : List β) (i : Int) : Except Fault β :=
  if 0 ≤ i then
    match v[i.toNat]? with
    | some x => Except.ok x
    | none => Except.error Fault.outOfRange
  else
    Except.error Fault.outOfRange

/-- The external `Projection` collaborator as far as `Population` sees it: the
identity of the instance and its synapse-type tag. -/
structure Projection where
  ident : Nat
  type : Nat
  deriving DecidableEq, Repr

/-- Data members of `class Population` (lines 53-60 of the header). -/
structure Population (α : Type) where
  nbNeurons_ : Int
  name_ : String
  maxDelay_ : Int
  dt_ : α
  rate_ : List α
  delayedRates_ : List (List α)
  projections_ : List (List (Option Projection))
  deriving DecidableEq, Repr

namespace Population

variable {α : Type}

/-- Source: `std::string getName() { return name_; }`. -/
def getName (p : Population α) : String := p.name_

/-- Source: `virtual int getNeuronCount() { return nbNeurons_; }`. -/
def getNeuronCount (p : Population α) : Int := p.nbNeurons_

/-- Source: `Projection* getProjection(int neuron, int type)
{ return projections_[neuron][type]; }`. Two unchecked element accesses. -/
def getProjection (p : Population α) (neuron type : Int) :
    Except Fault (Option Projection) :=
  match vecAt p.projections_ neuron with
  | Except.ok row => vecAt row type
  | Except.error e => Except.error e

/-- Source: `std::vector<DATA_TYPE>* getRates() { return &rate_; }` (the overload
without argument). The result is never `NULL`. -/
def getRatesNow (p : Population α) : List α := p.rate_

/-- Source: `std::vector<DATA_TYPE>* getRates(int delay)`:
`if (delay < (int)delayedRates_.size()) return &(delayedRates_[delay-1]); else return NULL;`. -/
def getRates (p : Population α) (delay : Int) : Except Fault (Option (List α)) :=
  if delay < castToInt p.delayedRates_.length then
    match vecAt p.delayedRates_ (delay - 1) with
    | Except.ok snapshot => Except.ok (some snapshot)
    | Except.error e => Except.error e
  else
    Except.ok none

/-- Source: `DATA_TYPE getDt() { return dt_; }`. -/
def getDt (p : Population α) : α := p.dt_

/-- Source: `void setDt(DATA_TYPE dt) { dt_ = dt; }`. -/
def setDt (p : Population α) (dt : α) : Population α := { p with dt_ := dt }

/-- The inline member functions of the header, as requests. -/
inductive HeaderOp (α : Type) where
  | getName
  | getNeuronCount
  | getProjection (neuron type : Int)
  | getRatesNow
  | getRates (delay : Int)
  | getDt
  | setDt (dt : α)

/-- What a header operation hands back. -/
inductive Value (α : Type) where
  | str (s : String)
  | int (n : Int)
  | proj (q : Option Projection)
  | ratesRef (r : List α)
  | ratesPtr (r : Option (List α))
  | data (x : α)
  | void

/-- One call of a header operation on a population: the returned value together
with the population after the call, or the fault the body runs into. Only
`setDt` contains an assignment; every other body is a single `return`. -/
def run (op : HeaderOp α) (p : Population α) : Except Fault (Value α × Population α) :=
  match op with
  | HeaderOp.getName => Except.ok (Value.str p.getName, p)
  | HeaderOp.getNeuronCount => Except.ok (Value.int p.getNeuronCount, p)
  | HeaderOp.getProjection neuron type =>
    match p.getProjection neuron type with
    | Except.ok q => Except.ok (Value.proj q, p)
    | Except.error e => Except.error e
  | HeaderOp.getRatesNow => Except.ok (Value.ratesRef p.getRatesNow, p)
  | HeaderOp.getRates delay =>
    match p.getRates delay with
    | Except.ok r => Except.ok (Value.ratesPtr r, p)
    | Except.error e => Except.error e
  | HeaderOp.getDt => Except.ok (Value.data p.getDt, p)
  | HeaderOp.setDt dt => Except.ok (Value.void, p.setDt dt)

/-- The indices a header operation uses lie inside the vectors it indexes. The
operations that index nothing satisfy this on every population. -/
def inBounds (op : HeaderOp α) (p : Population α) : Prop :=
  match op with
  | HeaderOp.getProjection neuron type =>
    0 ≤ neuron ∧ 0 ≤ type ∧
      ∃ row, p.projections_[neuron.toNat]? = some row ∧ type.toNat < row.length
  | HeaderOp.getRates delay =>
    delay < castToInt p.delayedRates_.length →
      1 ≤ delay ∧ (delay - 1).toNat < p.delayedRates_.length
  | _ => True

/-- Modelled from the spec: the constructor `Population(std::string name, int nbNeurons)`,
whose body is not in the header. Spec, lifecycle: "created with name + neuronCount
(rate zero-initialized, delayHistory empty, maxDelay 0)"; no projection is attached.
The spec gives no initial `dt`, so it is an argument here. -/
def create [Zero α] (name : String) (nbNeurons : Int) (dt : α) : Population α :=
  { nbNeurons_ := nbNeurons
    name_ := name
    maxDelay_ := 0
    dt_ := dt
    rate_ := List.replicate nbNeurons.toNat 0
    delayedRates_ := []
    projections_ := List.replicate nbNeurons.toNat [] }

/-- The errors of the spec's *ConfigurationError* class. -/
inductive ConfigurationError where
  | rankOutOfRange
  | duplicateKey
  deriving DecidableEq, Repr

/-- An entry exists at key `(rank, type)` of the connection table. -/
def registered (p : Population α) (rank : Int) (type : Nat) : Bool :=
  match p.getProjection rank (type : Int) with
  | Except.ok (some _) => true
  | _ => false

/-- The table itself at key `(rank, type)`: the projection held in position `type`
of row `rank` of `projections_`, and `none` when that row or position does not exist
or the position holds `NULL`. Read off the data member, without any lookup function. -/
def entryAt (p : Population α) (rank type : Nat) : Option Projection :=
  match p.projections_[rank]? with
  | some row =>
    match row[type]? with
    | some slot => slot
    | none => none
  | none => none

/-- Store `proj` at position `type` of one neuron's row, lengthening the row with
`NULL` entries when it is too short. -/
def putAt (row : List (Option Projection)) (type : Nat) (proj : Projection) :
    List (Option Projection) :=
  (row ++ List.replicate (type + 1 - row.length) none).set type (some proj)

/-- Modelled from the spec: `void addProjection(int postRankID, Projection* proj)`,
declared in the header without a body. Spec 4.2: "registers under
(rank, projection.type). Precondition: 0 ≤ rank < neuronCount. Rejects (does not
overwrite) if an entry already exists for that key [...] and the index is left
unchanged on rejection". A rejection is an error value; the population is then
the one passed in. -/
def addProjection (p : Population α) (postRankID : Int) (proj : Projection) :
    Except ConfigurationError (Population α) :=
  if postRankID < 0 ∨ p.nbNeurons_ ≤ postRankID then
    Except.error ConfigurationError.rankOutOfRange
  else
    match p.projections_[postRankID.toNat]? with
    | none => Except.error ConfigurationError.rankOutOfRange
    | some row =>
      if p.registered postRankID proj.type then
        Except.error ConfigurationError.duplicateKey
      else
        Except.ok
          { p with
            projections_ :=
              p.projections_.set postRankID.toNat (putAt row proj.type proj) }

end Population

/-- Three neurons, two delay slots: the end-to-end population of the spec after
its two `advance()` calls. -/
def endToEnd : Population Int :=
  { nbNeurons_ := 3
    name_ := "pop"
    maxDelay_ := 2
    dt_ := 1
    rate_ := [4, 5, 6]
    delayedRates_ := [[4, 5, 6], [1, 2, 3]]
    projections_ := [[], [], []] }

/-- One neuron whose only registered projection has type 0. -/
def wired : Population Int :=
  { nbNeurons_ := 1
    name_ := "post"
    maxDelay_ := 0
    dt_ := 1
    rate_ := [0]
    delayedRates_ := []
    projections_ := [[some ⟨7, 0⟩]] }

/-- One neuron with an empty slot at type 0 and projections registered at types 1
and 2. -/
def sparse : Population Int :=
  { nbNeurons_ := 1
    name_ := "post"
    maxDelay_ := 0
    dt_ := 1
    rate_ := [0]
    delayedRates_ := []
    projections_ := [[none, some ⟨8, 1⟩, some ⟨9, 2⟩]] }

/-- A history of `2 ^ 31` (empty) snapshots: one more than `INT_MAX`. -/
def deepHistory : Population Int :=
  { nbNeurons_ := 0
    name_ := "deep"
    maxDelay_ := 0
    dt_ := 1
    rate_ := []
    delayedRates_ := List.replicate (2 ^ 31) []
    projections_ := [] }

namespace Population

variable {α : Type}

/-! ### Auxiliary facts about the cast and the element access -/

theorem castToInt_of_le_INT_MAX (n : Nat) (h : (n : Int) ≤ INT_MAX) : castToInt n = (n : Int) := by
  have hn : n < 2 ^ 31 := by
    have : (n : Int) < 2 ^ 31 := by
      simp only [INT_MAX, INT_BITS] at h
      omega
    exact_mod_cast this
  have hmod : n % 2 ^ 32 = n := Nat.mod_eq_of_lt (by omega)
  simp only [castToInt, INT_BITS]
  rw [hmod, if_pos (by omega)]

theorem vecAt_of_getElem? {β : Type} (v : List β) (i : Int) (x : β) (hi : 0 ≤ i)
    (hx : v[i.toNat]? = some x) : vecAt v i = Except.ok x := by
  simp [vecAt, hi, hx]

theorem vecAt_of_neg {β : Type} (v : List β) (i : Int) (hi : i < 0) :
    vecAt v i = Except.error Fault.outOfRange := by
  have : ¬ (0 ≤ i) := by omega
  simp [vecAt, this]

theorem vecAt_of_length_le {β : Type} (v : List β) (i : Int) (hi : (v.length : Int) ≤ i) :
    vecAt v i = Except.error Fault.outOfRange := by
  by_cases h0 : 0 ≤ i
  · have hlen : v.length ≤ i.toNat := by omega
    have hnone : v[i.toNat]? = none := List.getElem?_eq_none hlen
    simp [vecAt, h0, hnone]
  · simp [vecAt, h0]

/-- Below the guard and from 1 on, the lookup hands back the element at `delay - 1`. -/
theorem getRates_inside (p : Population α) (d : Int) (hsize : (p.delayedRates_.length : Int) ≤ INT_MAX)
    (hd : 1 ≤ d) (hlt : d < (p.delayedRates_.length : Int)) :
    ∃ v, p.delayedRates_[(d - 1).toNat]? = some v ∧ p.getRates d = Except.ok (some v) := by
  have hidx : (d - 1).toNat < p.delayedRates_.length := by omega
  refine ⟨p.delayedRates_[(d - 1).toNat], List.getElem?_eq_getElem hidx, ?_⟩
  have hv := vecAt_of_getElem? p.delayedRates_ (d - 1) _ (by omega) (List.getElem?_eq_getElem hidx)
  simp [getRates, castToInt_of_le_INT_MAX _ hsize, hlt, hv]

/-- At or above the guard the lookup hands back `NULL`. -/
theorem getRates_outside (p : Population α) (d : Int) (hsize : (p.delayedRates_.length : Int) ≤ INT_MAX)
    (hge : (p.delayedRates_.length : Int) ≤ d) : p.getRates d = Except.ok none := by
  have : ¬ (d < (p.delayedRates_.length : Int)) := by omega
  simp [getRates, castToInt_of_le_INT_MAX _ hsize, this]

/-- A delay below 1 that passes the guard indexes outside the history. -/
theorem getRates_below_one (p : Population α) (d : Int) (hd : d < 1)
    (hguard : d < castToInt p.delayedRates_.length) :
    p.getRates d = Except.error Fault.outOfRange := by
  have hv := vecAt_of_neg p.delayedRates_ (d - 1) (by omega)
  simp [getRates, hguard, hv]

theorem putAt_getElem? (row : List (Option Projection)) (type : Nat) (proj : Projection) :
    (putAt row type proj)[type]? = some (some proj) := by
  unfold putAt
  apply List.getElem?_set_self
  simp only [List.length_append, List.length_replicate]
  omega

/-- The population left by an accepted `addProjection`. -/
theorem addProjection_ok (p : Population α) (rank : Int) (proj : Projection)
    (row : List (Option Projection)) (h0 : 0 ≤ rank) (hn : rank < p.nbNeurons_)
    (hrow : p.projections_[rank.toNat]? = some row)
    (hfree : p.registered rank proj.type = false) :
    p.addProjection rank proj =
      Except.ok { p with projections_ := p.projections_.set rank.toNat (putAt row proj.type proj) } := by
  have hrange : ¬ (rank < 0 ∨ p.nbNeurons_ ≤ rank) := by omega
  simp [addProjection, hrange, hrow, hfree]

/-! ### The claims -/

/-- C1 (the code at the failing input): in the end-to-end population the history
holds `maxDelay_ = 2` snapshots and slot 2 (0-based element 1) stores `[1, 2, 3]`;
`getRates(1)` hands back `[4, 5, 6]`, but `getRates(2)` hands back `NULL`, because
the guard `delay < size` excludes `delay == size`. -/
theorem getRates_at_maxDelay_is_null :
    (endToEnd.delayedRates_.length : Int) = endToEnd.maxDelay_ ∧
      endToEnd.delayedRates_[1]? = some [1, 2, 3] ∧
      endToEnd.getRates 1 = Except.ok (some [4, 5, 6]) ∧
      endToEnd.getRates 2 = Except.ok none :=
  ⟨rfl, rfl, rfl, rfl⟩

/-- C2: when the history holds `maxDelay_` snapshots, every delay `d > maxDelay_`
makes `getRates(d)` hand back `NULL`; in particular a freshly created population
(empty history, `maxDelay_ = 0`) hands back `NULL` for every delay from 1 on. -/
theorem getRates_absent_beyond_maxDelay [Zero α] (p : Population α) (d : Int)
    (hlen : (p.delayedRates_.length : Int) = p.maxDelay_) (hmax : p.maxDelay_ ≤ INT_MAX)
    (hd : p.maxDelay_ < d) :
    p.getRates d = Except.ok none ∧
      ∀ (name : String) (n : Int) (dt : α) (k : Int), 1 ≤ k →
        (create name n dt).getRates k = Except.ok none := by
  constructor
  · exact getRates_outside p d (by omega) (by omega)
  · intro name n dt k hk
    apply getRates_outside
    · simp [create, INT_MAX, INT_BITS]
    · simp only [create, List.length_nil]
      omega

theorem getRates_absent_beyond_maxDelay_witness :
    ((endToEnd.delayedRates_.length : Int) = endToEnd.maxDelay_ ∧ endToEnd.maxDelay_ < 3) ∧
      endToEnd.getRates 3 = Except.ok none :=
  ⟨⟨rfl, by decide⟩, (getRates_absent_beyond_maxDelay endToEnd 3 rfl (by decide) (by decide)).1⟩

/-- C3 (the code at the failing input): with two stored snapshots, `getRates(0)` and
`getRates(-1)` pass the guard `delay < size` and index the history at `delay - 1 < 0`,
outside `[0, size)`, instead of handing back `NULL`. -/
theorem getRates_nonpositive_delay_out_of_range :
    endToEnd.getRates 0 = Except.error Fault.outOfRange ∧
      endToEnd.getRates (-1) = Except.error Fault.outOfRange :=
  ⟨rfl, rfl⟩

/-- Inside the table the lookup hands back exactly what the table holds at
`[rank][type]`. -/
theorem getProjection_in_row (p : Population α) (rank type : Int)
    (row : List (Option Projection)) (h0 : 0 ≤ rank) (ht0 : 0 ≤ type)
    (hrow : p.projections_[rank.toNat]? = some row) (ht : type < (row.length : Int)) :
    p.getProjection rank type = Except.ok (p.entryAt rank.toNat type.toNat) := by
  have hlen : type.toNat < row.length := by omega
  have hslot : row[type.toNat]? = some row[type.toNat] := List.getElem?_eq_getElem hlen
  have h1 := vecAt_of_getElem? p.projections_ rank row h0 hrow
  have h2 := vecAt_of_getElem? row type _ ht0 hslot
  simp only [getProjection, h1, h2, entryAt, hrow, hslot]

/-- C4 (counterexample): rank 0 lies in `[0, neuronCount)` of `wired`, whose table holds
one projection for neuron 0, at type 0, and nothing at type 5; yet `getProjection(0, 5)`
does not hand back `NULL`: it indexes the one-element row at 5, outside the row. -/
theorem getProjection_unregistered_out_of_range :
    ((0 : Int) ≤ 0 ∧ (0 : Int) < wired.getNeuronCount) ∧
      wired.entryAt 0 5 = none ∧
      wired.registered 0 5 = false ∧
      wired.getProjection 0 5 ≠ Except.ok none ∧
      wired.getProjection 0 5 = Except.error Fault.outOfRange :=
  ⟨by decide, rfl, rfl,
    by simp [show wired.getProjection 0 5 = Except.error Fault.outOfRange from rfl], rfl⟩

/-- C4 (amended): for a rank inside `[0, neuronCount)` of a population whose connection
table has one row per neuron, and a type that indexes inside that neuron's row
(`0 ≤ type < row size`) where the table holds no projection (`projections_[rank][type]`
is `NULL`), `getProjection(rank, type)` hands back `NULL` (and stays inside the table). -/
theorem getProjection_unregistered_in_row (p : Population α) (rank type : Int)
    (h0 : 0 ≤ rank) (hn : rank < p.getNeuronCount)
    (hrows : (p.projections_.length : Int) = p.getNeuronCount)
    (ht0 : 0 ≤ type)
    (ht : ∀ row, p.projections_[rank.toNat]? = some row → type < (row.length : Int))
    (hfree : p.entryAt rank.toNat type.toNat = none) :
    p.getProjection rank type = Except.ok none := by
  have hidx : rank.toNat < p.projections_.length := by
    simp only [getNeuronCount] at hn hrows
    omega
  have hrow : p.projections_[rank.toNat]? = some p.projections_[rank.toNat] :=
    List.getElem?_eq_getElem hidx
  rw [getProjection_in_row p rank type _ h0 ht0 hrow (ht _ hrow), hfree]

theorem getProjection_unregistered_in_row_witness :
    (sparse.projections_ = [[none, some ⟨8, 1⟩, some ⟨9, 2⟩]] ∧ sparse.entryAt 0 0 = none) ∧
      sparse.getProjection 0 0 = Except.ok none :=
  ⟨⟨rfl, rfl⟩,
    getProjection_unregistered_in_row sparse 0 0 (by decide) (by decide) rfl (by decide)
      (by
        intro row hrow
        have : row = [none, some ⟨8, 1⟩, some ⟨9, 2⟩] := by
          simpa [sparse] using hrow.symm
        subst this
        decide)
      rfl⟩

/-- C5: for a rank inside `[0, neuronCount)` of a population whose connection table
has one row per neuron, and a projection whose key `(rank, type)` is not registered,
`addProjection(rank, proj)` is accepted and `getProjection(rank, proj.type)` on the
resulting population hands back that same projection. -/
theorem addProjection_then_getProjection (p : Population α) (rank : Int) (proj : Projection)
    (h0 : 0 ≤ rank) (hn : rank < p.getNeuronCount)
    (hrows : (p.projections_.length : Int) = p.getNeuronCount)
    (hfree : p.registered rank proj.type = false) :
    ∃ q, p.addProjection rank proj = Except.ok q ∧
      q.getProjection rank proj.type = Except.ok (some proj) := by
  have hidx : rank.toNat < p.projections_.length := by
    simp only [getNeuronCount] at hn hrows
    omega
  have hrow : p.projections_[rank.toNat]? = some p.projections_[rank.toNat] :=
    List.getElem?_eq_getElem hidx
  refine ⟨_, addProjection_ok p rank proj _ h0 hn hrow hfree, ?_⟩
  have hnew : (p.projections_.set rank.toNat (putAt p.projections_[rank.toNat] proj.type proj))[rank.toNat]?
      = some (putAt p.projections_[rank.toNat] proj.type proj) :=
    List.getElem?_set_self hidx
  have h1 := vecAt_of_getElem? _ rank _ h0 hnew
  have h2 := vecAt_of_getElem? (putAt p.projections_[rank.toNat] proj.type proj) (proj.type : Int)
    (some proj) (by omega) (by simpa using putAt_getElem? _ _ _)
  simp only [getProjection, h1, h2]

theorem addProjection_then_getProjection_witness :
    wired.registered 0 3 = false ∧
      ∃ q, wired.addProjection 0 ⟨9, 3⟩ = Except.ok q ∧
        q.getProjection 0 3 = Except.ok (some ⟨9, 3⟩) :=
  ⟨rfl, addProjection_then_getProjection wired 0 ⟨9, 3⟩ (by decide) (by decide) rfl rfl⟩

/-- C7 (counterexample): the end-to-end population has `getDt() = 1 > 0`, and after
`setDt(0)` the step size returned by `getDt()` is `0`, which is not positive. -/
theorem setDt_zero_breaks_positivity :
    0 < endToEnd.getDt ∧ ¬ 0 < (endToEnd.setDt 0).getDt := by
  decide

/-- C7 (amended): `setDt` stores its argument unchecked, so after `setDt(x)` the
step size returned by `getDt()` is positive exactly when `x` is positive. -/
theorem setDt_positive_iff [Zero α] [LT α] (p : Population α) (x : α) :
    0 < (p.setDt x).getDt ↔ 0 < x :=
  Iff.rfl

/-- C8: a header operation that returns leaves `getNeuronCount()` as it was, and it
does return whenever the indices it uses are in bounds (always, for `setDt`,
`getName`, `getNeuronCount`, `getRates()` and `getDt`). -/
theorem neuronCount_frame (p : Population α) (op : HeaderOp α) :
    (∀ (v : Value α) (q : Population α), run op p = Except.ok (v, q) →
        q.getNeuronCount = p.getNeuronCount) ∧
      (inBounds op p → ∃ (v : Value α) (q : Population α), run op p = Except.ok (v, q)) := by
  cases op with
  | getName =>
    refine ⟨?_, fun _ => ⟨_, _, rfl⟩⟩
    intro v q h
    simp only [run, Except.ok.injEq, Prod.mk.injEq] at h
    rw [← h.2]
  | getNeuronCount =>
    refine ⟨?_, fun _ => ⟨_, _, rfl⟩⟩
    intro v q h
    simp only [run, Except.ok.injEq, Prod.mk.injEq] at h
    rw [← h.2]
  | getRatesNow =>
    refine ⟨?_, fun _ => ⟨_, _, rfl⟩⟩
    intro v q h
    simp only [run, Except.ok.injEq, Prod.mk.injEq] at h
    rw [← h.2]
  | getDt =>
    refine ⟨?_, fun _ => ⟨_, _, rfl⟩⟩
    intro v q h
    simp only [run, Except.ok.injEq, Prod.mk.injEq] at h
    rw [← h.2]
  | setDt dt =>
    refine ⟨?_, fun _ => ⟨_, _, rfl⟩⟩
    intro v q h
    simp only [run, Except.ok.injEq, Prod.mk.injEq] at h
    rw [← h.2]
    rfl
  | getProjection neuron type =>
    constructor
    · intro v q h
      simp only [run] at h
      split at h
      · simp only [Except.ok.injEq, Prod.mk.injEq] at h
        rw [← h.2]
      · exact absurd h (by simp)
    · rintro ⟨hn, ht, row, hrow, hlen⟩
      have h1 := vecAt_of_getElem? p.projections_ neuron row hn hrow
      have h2 := vecAt_of_getElem? row type _ ht (List.getElem?_eq_getElem hlen)
      exact ⟨Value.proj row[type.toNat], p, by simp only [run, getProjection, h1, h2]⟩
  | getRates delay =>
    constructor
    · intro v q h
      simp only [run] at h
      split at h
      · simp only [Except.ok.injEq, Prod.mk.injEq] at h
        rw [← h.2]
      · exact absurd h (by simp)
    · intro hb
      simp only [inBounds] at hb
      by_cases hg : delay < castToInt p.delayedRates_.length
      · obtain ⟨h1, hlen⟩ := hb hg
        have hv := vecAt_of_getElem? p.delayedRates_ (delay - 1) _ (by omega)
          (List.getElem?_eq_getElem hlen)
        exact ⟨Value.ratesPtr (some p.delayedRates_[(delay - 1).toNat]), p,
          by simp only [run, getRates, hg, if_true, hv]⟩
      · exact ⟨Value.ratesPtr none, p, by simp only [run, getRates, hg, if_false]⟩

theorem neuronCount_frame_witness :
    run (HeaderOp.setDt 5) endToEnd = Except.ok (Value.void, endToEnd.setDt 5) ∧
      (endToEnd.setDt 5).getNeuronCount = endToEnd.getNeuronCount ∧
      ∃ (v : Value Int) (q : Population Int), run (HeaderOp.getRates 1) endToEnd = Except.ok (v, q) :=
  ⟨rfl, (neuronCount_frame endToEnd (HeaderOp.setDt 5)).1 _ _ rfl,
    (neuronCount_frame endToEnd (HeaderOp.getRates 1)).2 (fun _ => ⟨by decide, by decide⟩)⟩

/-- C9 (counterexample): the history of `deepHistory` holds `2 ^ 31` snapshots, so
`(int)delayedRates_.size()` wraps to `-2 ^ 31`; for the delay `5`, which is at least 1
and below the size, the guard `5 < -2 ^ 31` fails and `getRates(5)` hands back `NULL`. -/
theorem getRates_wrapped_size_is_null :
    (1 : Int) ≤ 5 ∧ (5 : Int) < (deepHistory.delayedRates_.length : Int) ∧
      deepHistory.getRates 5 = Except.ok none := by
  have hlen : deepHistory.delayedRates_.length = 2 ^ 31 := by
    simp only [deepHistory, List.length_replicate]
  have hcast : castToInt (2 ^ 31) = -(2 ^ 31) := by
    simp only [castToInt, INT_BITS]
    norm_num
  refine ⟨by decide, ?_, ?_⟩
  · rw [hlen]
    norm_num
  · simp only [getRates, hlen, hcast]
    norm_num

/-- C9 (amended): when the history size fits the `int` it is cast to
(`delayedRates_.size() ≤ INT_MAX`), for every delay `d ≥ 1` the lookup `getRates(d)`
hands back a snapshot if and only if `d < delayedRates_.size()`; in that case it is the
element at 0-based position `d - 1`; and for every `d ≥ delayedRates_.size()` it hands
back `NULL`. -/
theorem getRates_exact (p : Population α) (d : Int)
    (hsize : (p.delayedRates_.length : Int) ≤ INT_MAX) (hd : 1 ≤ d) :
    ((∃ v, p.getRates d = Except.ok (some v)) ↔ d < (p.delayedRates_.length : Int)) ∧
      (d < (p.delayedRates_.length : Int) →
        ∃ v, p.delayedRates_[(d - 1).toNat]? = some v ∧ p.getRates d = Except.ok (some v)) ∧
      ((p.delayedRates_.length : Int) ≤ d → p.getRates d = Except.ok none) := by
  refine ⟨⟨?_, ?_⟩, getRates_inside p d hsize hd, getRates_outside p d hsize⟩
  · rintro ⟨v, hv⟩
    by_contra hge
    rw [getRates_outside p d hsize (by omega)] at hv
    simp at hv
  · intro hlt
    obtain ⟨v, _, hv⟩ := getRates_inside p d hsize hd hlt
    exact ⟨v, hv⟩

theorem getRates_exact_witness :
    (endToEnd.delayedRates_.length : Int) ≤ INT_MAX ∧
      (∃ v, endToEnd.delayedRates_[0]? = some v ∧ endToEnd.getRates 1 = Except.ok (some v)) ∧
      endToEnd.getRates 2 = Except.ok none :=
  ⟨by decide, (getRates_exact endToEnd 1 (by decide) (by decide)).2.1 (by decide),
    (getRates_exact endToEnd 2 (by decide) (by decide)).2.2 (by decide)⟩

/-- C10: after `setDt(x)`, `getDt()` returns exactly `x`, and the name, the neuron
count, `maxDelay_`, the rate vector, the delay history and the connection table are
what they were before the call. -/
theorem setDt_getDt_roundtrip (p : Population α) (x : α) :
    (p.setDt x).getDt = x ∧
      (p.setDt x).getName = p.getName ∧
      (p.setDt x).getNeuronCount = p.getNeuronCount ∧
      (p.setDt x).maxDelay_ = p.maxDelay_ ∧
      (p.setDt x).getRatesNow = p.getRatesNow ∧
      (p.setDt x).delayedRates_ = p.delayedRates_ ∧
      (p.setDt x).projections_ = p.projections_ :=
  ⟨rfl, rfl, rfl, rfl, rfl, rfl, rfl⟩

end Population

end ANNarchy
